import Mathlib

/-!
Shallow embedding of the Hyperliquid whale bot (src/whaleTracker.js,
src/hyperliquid.js) and proofs about its specified behaviour.

Numbers: JS floats are modelled as exact rationals (ℚ); millisecond
timestamps as integers (ℤ).  JS falsiness of a numeric field (0, NaN,
undefined) is modelled either as the rational 0 or, where a value can be
absent altogether (a failed map lookup), as `Option`.
-/

namespace WhaleBot

/-- Position direction as stored by the tracker (string LONG / SHORT in JS). -/
inductive Direction : Type
  | LONG : Direction
  | SHORT : Direction
deriving DecidableEq, Repr

/-- A formatted position as built in scanWhalePositions / fetchActivePositions.
Fields not used by any analysed code path (timestamps, pnl, leverage) are
omitted.  `entryPrice` 0 models a JS-falsy entry price. -/
structure PositionRec : Type where
  wallet : String
  asset : String
  size : ℚ
  direction : Direction
  notionalValue : ℚ
  entryPrice : ℚ
  liquidationPrice : ℚ
deriving DecidableEq, Repr

/- ---------------------------------------------------------------------
   Trade deduplication (whaleTracker.js lines 52-53 and 135-150).
   The processed-trade-id set is a JS Set, which iterates in insertion
   order; we model it as a duplicate-free list in insertion order.
   Trade ids are numeric (trade.tid); a missing / falsy id is `none`.
--------------------------------------------------------------------- -/

def MAX_CACHED_TRADE_IDS : ℕ := 10000

/-- One evaluation of the filter callback in handleWebSocketMessage
(whaleTracker.js lines 135-150): reject a missing id, reject an id already
in the set; otherwise record the id and, if the set now exceeds
MAX_CACHED_TRADE_IDS, delete the first 1000 ids in insertion order.
Returns (filter result, new set). -/
def tradeDedupAdmit (s : List ℕ) (tid : Option ℕ) : Bool × List ℕ :=
  match tid with
  | none => (false, s)
  | some id =>
    if id ∈ s then (false, s)
    else
      let s' := s ++ [id]
      if MAX_CACHED_TRADE_IDS < s'.length then (true, s'.drop 1000)
      else (true, s')

/- ---------------------------------------------------------------------
   Position update decision (whaleTracker.js lines 286-320).
--------------------------------------------------------------------- -/

/-- Result of reconciling a current position against a tracked one. -/
structure UpdateResult : Type where
  updated : Bool
  tracked : PositionRec
  sizeDelta : Option ℚ
  persisted : Bool
  alerted : Bool
deriving Repr

/-- The else-branch of the reconciliation loop (whaleTracker.js 286-320):
sizeDelta = |size| - |existing.size|; transition open→updated exactly when
|sizeDelta| / |existing.size| > 0.1, in which case the position replaces the
tracked one, is persisted, and an update alert fires when the notional is at
least 1,000,000 and |sizeDelta| times the asset price is at least 500,000. -/
def scanExistingPosition (existing position : PositionRec) (assetPrice : ℚ) :
    UpdateResult :=
  let sizeDelta := |position.size| - |existing.size|
  if |sizeDelta| / |existing.size| > 1/10 then
    { updated := true
      tracked := position
      sizeDelta := some sizeDelta
      persisted := true
      alerted := decide (|position.notionalValue| ≥ 1000000 ∧
                         |sizeDelta| * assetPrice ≥ 500000) }
  else
    { updated := false
      tracked := existing
      sizeDelta := none
      persisted := false
      alerted := false }

/- ---------------------------------------------------------------------
   Position closure (whaleTracker.js lines 325-354, 485-536).
--------------------------------------------------------------------- -/

/-- Outcome of processing one tracked key that is absent from the current
snapshot. `statsUpdated` records whether updateWalletStats ran (it runs from
storeClosedPosition exactly when the position was marked closed, which this
path always does before storing). -/
structure ClosureResult : Type where
  removed : Bool
  stored : Bool
  statsUpdated : Bool
  alerted : Bool
  exitPrice : Option ℚ
  finalPnl : Option ℚ
  finalPnlPercent : Option ℚ
deriving Repr

/-- The closure branch of scanWhalePositions (whaleTracker.js 325-354).
`marketPrice` is marketStats[asset].price when the marketStats entry exists
(`none` models a missing entry).  The guard is the JS truthiness test
`position.entryPrice && marketStats[asset] && marketStats[asset].price`.
The key is deleted from the tracked map in every case. -/
def scanClosedPosition (position : PositionRec) (marketPrice : Option ℚ) :
    ClosureResult :=
  match marketPrice with
  | some exitPrice =>
    if position.entryPrice ≠ 0 ∧ exitPrice ≠ 0 then
      let pnlAmount :=
        if position.direction = Direction.LONG then
          (exitPrice - position.entryPrice) * |position.size|
        else
          (position.entryPrice - exitPrice) * |position.size|
      let pnlPercent := pnlAmount / (position.entryPrice * |position.size|) * 100
      { removed := true
        stored := true
        statsUpdated := true
        alerted := decide (|position.notionalValue| ≥ 1000000)
        exitPrice := some exitPrice
        finalPnl := some pnlAmount
        finalPnlPercent := some pnlPercent }
    else
      { removed := true, stored := false, statsUpdated := false,
        alerted := false, exitPrice := none, finalPnl := none,
        finalPnlPercent := none }
  | none =>
    { removed := true, stored := false, statsUpdated := false,
      alerted := false, exitPrice := none, finalPnl := none,
      finalPnlPercent := none }

/- ---------------------------------------------------------------------
   Liquidation risk (whaleTracker.js lines 426-452).
--------------------------------------------------------------------- -/

/-- calculateLiquidationRisk (whaleTracker.js 426-452).  `currentPrice` is
the marketStats[asset].price lookup (`none` when the marketStats entry is
missing; 0 models a falsy price).  The Bool records whether the
invalid-liquidation-price warning was logged.  A falsy liquidationPrice or
currentPrice short-circuits to risk 0 with no warning. -/
def calculateLiquidationRisk (direction : Direction)
    (entryPrice liquidationPrice : ℚ) (currentPrice : Option ℚ) : ℚ × Bool :=
  match currentPrice with
  | none => (0, false)
  | some c =>
    if liquidationPrice = 0 ∨ c = 0 then (0, false)
    else
      match direction with
      | Direction.LONG =>
        if liquidationPrice ≥ entryPrice then (0, true)
        else
          let priceDrop := ((c - liquidationPrice) / c) * 100
          (max 0 (100 - priceDrop), false)
      | Direction.SHORT =>
        if liquidationPrice ≤ entryPrice then (0, true)
        else
          let priceRise := ((liquidationPrice - c) / c) * 100
          (max 0 (100 - priceRise), false)

/- ---------------------------------------------------------------------
   WebSocket reconnection (hyperliquid.js lines 24-26, 44-46, 85-109).
--------------------------------------------------------------------- -/

def MAX_RECONNECT_ATTEMPTS : ℕ := 10

def RECONNECT_DELAY_MS : ℚ := 5000

/-- The close handler (hyperliquid.js 85-109), acting on the reconnect
attempt counter: when the counter is below MAX_RECONNECT_ATTEMPTS, schedule
a reconnect after RECONNECT_DELAY_MS * 1.5 ^ counter milliseconds and
increment the counter; otherwise schedule nothing and leave the counter. -/
def wsOnClose (attempts : ℕ) : Option ℚ × ℕ :=
  if attempts < MAX_RECONNECT_ATTEMPTS then
    (some (RECONNECT_DELAY_MS * (3/2 : ℚ) ^ attempts), attempts + 1)
  else
    (none, attempts)

/-- The open handler (hyperliquid.js 44-46) resets the attempt counter. -/
def wsOnOpen (_ : ℕ) : ℕ := 0

/- ---------------------------------------------------------------------
   Price cache (hyperliquid.js lines 17-20, 179-247).
--------------------------------------------------------------------- -/

/-- assetPriceCache (hyperliquid.js 17-20): last successful-update time and
the cached asset→price mapping (an association list). -/
structure PriceCache : Type where
  lastUpdated : ℤ
  prices : List (String × ℚ)
deriving DecidableEq, Repr

/-- Outcome of one fetchRealTimePrices call: the returned mapping, the new
cache state, and whether a network request was issued. -/
structure FetchResult : Type where
  result : List (String × ℚ)
  cache : PriceCache
  networkCalled : Bool
deriving DecidableEq, Repr

/-- fetchRealTimePrices (hyperliquid.js 179-247).  `outcome` abstracts the
network interaction: `Except.error` models a thrown error (network failure
or non-ok response); `Except.ok prices` models a successful response after
extraction of the monitored assets' prices.  Within 30000 ms of the last
successful fetch a non-empty cache is returned with no network call; a
successful non-empty fetch replaces the cache; a successful empty fetch
returns the empty mapping; a thrown error returns the cached mapping when
non-empty and the empty mapping otherwise. -/
def fetchRealTimePrices (c : PriceCache) (now : ℤ)
    (outcome : Except Unit (List (String × ℚ))) : FetchResult :=
  if now - c.lastUpdated < 30000 ∧ c.prices ≠ [] then
    { result := c.prices, cache := c, networkCalled := false }
  else
    match outcome with
    | Except.ok fetched =>
      if fetched ≠ [] then
        { result := fetched
          cache := { lastUpdated := now, prices := fetched }
          networkCalled := true }
      else
        { result := [], cache := c, networkCalled := true }
    | Except.error _ =>
      if c.prices ≠ [] then
        { result := c.prices, cache := c, networkCalled := true }
      else
        { result := [], cache := c, networkCalled := true }

/- ---------------------------------------------------------------------
   Tweet rate limiter (whaleTracker.js lines 55-104).
   Timestamps are integer milliseconds (Date.now()).  The fields
   `admitted` and `last` are specification history: `admitted` records
   every timestamp at which a slot was granted, `last` the time of the
   latest interaction; neither influences the computation.
--------------------------------------------------------------------- -/

structure RateLimiter : Type where
  maxRequests : ℕ
  timeWindow : ℤ
  requests : List ℤ
  queueLen : ℕ
  admitted : List ℤ
  last : ℤ
deriving Repr

/-- `this.requests = this.requests.filter(time => now - time < this.timeWindow)`
(whaleTracker.js lines 67 and 87). -/
def pruneRequests (w now : ℤ) (l : List ℤ) : List ℤ :=
  l.filter (fun t => decide (now - t < w))

/-- waitForSlot (whaleTracker.js 64-80): prune the window, then either
grant a slot immediately (recording the timestamp) or push the caller on
the wait queue.  The Bool is true when the slot was granted at once. -/
def waitForSlot (s : RateLimiter) (now : ℤ) : Bool × RateLimiter :=
  let reqs := pruneRequests s.timeWindow now s.requests
  if reqs.length < s.maxRequests then
    (true, { s with requests := reqs ++ [now],
                    admitted := s.admitted ++ [now], last := now })
  else
    (false, { s with requests := reqs, queueLen := s.queueLen + 1, last := now })

/-- One iteration of the processQueue loop (whaleTracker.js 82-101) at
time `now`: with a non-empty queue, prune the window and resolve the head
of the queue when a slot is free; otherwise only the pruned request list
is kept (the loop then sleeps until the oldest timestamp expires). -/
def processQueueStep (s : RateLimiter) (now : ℤ) : RateLimiter :=
  if s.queueLen = 0 then { s with last := now }
  else
    let reqs := pruneRequests s.timeWindow now s.requests
    if reqs.length < s.maxRequests then
      { s with requests := reqs ++ [now], queueLen := s.queueLen - 1,
               admitted := s.admitted ++ [now], last := now }
    else
      { s with requests := reqs, last := now }

/-- An interaction with the limiter: a waitForSlot call or a processQueue
iteration, each carrying its Date.now() value. -/
inductive RLEvent : Type
  | request : ℤ → RLEvent
  | poll : ℤ → RLEvent
deriving DecidableEq, Repr

def RLEvent.time : RLEvent → ℤ
  | RLEvent.request t => t
  | RLEvent.poll t => t

def rlStep (s : RateLimiter) (e : RLEvent) : RateLimiter :=
  match e with
  | RLEvent.request t => (waitForSlot s t).2
  | RLEvent.poll t => processQueueStep s t

def rlRun (s : RateLimiter) (es : List RLEvent) : RateLimiter :=
  es.foldl rlStep s

/-- The constructor (whaleTracker.js 56-62). -/
def mkRateLimiter (maxRequests : ℕ) (timeWindow : ℤ) : RateLimiter :=
  { maxRequests := maxRequests, timeWindow := timeWindow,
    requests := [], queueLen := 0, admitted := [], last := 0 }

/-- `new RateLimiter(5, 60 * 1000)` (whaleTracker.js line 104). -/
def tweetRateLimiter : RateLimiter := mkRateLimiter 5 (60 * 1000)

/-- Number of admissions inside the rolling window (t - w, t]. -/
def windowCount (w t : ℤ) (l : List ℤ) : ℕ :=
  (l.filter (fun a => decide (a ≤ t ∧ t - a < w))).length

/-- Every admission was granted while fewer than maxR earlier admissions
lay inside its window. -/
def GuardOK (maxR : ℕ) (w : ℤ) (l : List ℤ) : Prop :=
  ∀ pre b post, l = pre ++ b :: post →
    ((pre.filter (fun x => decide (b - x < w))).length < maxR)

/-- Reachability invariant of the limiter state: the admission history is
nondecreasing, bounded by the latest interaction time, the live request
list is the suffix of the history still inside the window, and every
admission respected the window quota when granted. -/
structure RLInv (s : RateLimiter) : Prop where
  sorted : s.admitted.Sorted (· ≤ ·)
  le_last : ∀ a ∈ s.admitted, a ≤ s.last
  suffix : ∃ k, k ≤ s.admitted.length ∧ s.requests = s.admitted.drop k ∧
    ∀ a ∈ s.admitted.take k, s.timeWindow ≤ s.last - a
  guard : GuardOK s.maxRequests s.timeWindow s.admitted

/- ---------------------------------------------------------------------
   Trade extraction and size normalization
   (hyperliquid.js lines 132-159, 250-317; whaleTracker.js 106-125, 128-186).
   The identifiers assetCtxs and assetIndices read by the normalization
   expression `10 ** -(assetCtxs[assetIndices[trade.coin]]?.szDecimals || 0)`
   (hyperliquid.js line 139, and assetIndices again at lines 282 and 472)
   are not defined anywhere in hyperliquid.js: assetIndices is a
   module-scoped const of whaleTracker.js that is not exported, and
   assetCtxs is defined nowhere in the repository.  ES modules do not
   share scopes, so evaluating either expression throws a ReferenceError.
--------------------------------------------------------------------- -/

/-- The runtime error thrown by reading an identifier that is not in
scope. -/
inductive ReferenceError : Type
  | assetCtxsUndefined : ReferenceError
  | assetIndicesUndefined : ReferenceError
deriving DecidableEq, Repr

/-- A raw trade as delivered on the trades channel. -/
structure RawTrade : Type where
  coin : String
  sz : ℚ
  px : ℚ
  tid : Option ℕ
deriving DecidableEq, Repr

/-- The normalized trade extractTradeData is written to produce
(hyperliquid.js 144-155); with the code as it stands no value of this
shape is ever constructed. -/
structure TradeRec : Type where
  asset : String
  price : ℚ
  size : ℚ
  notionalValue : ℚ
  isWhale : Bool
  tradeId : Option ℕ
deriving DecidableEq, Repr

/-- extractTradeData (hyperliquid.js 132-159) as the program behaves at
runtime: on a trades-channel message, data.map runs the per-trade callback
whose line 139 reads the out-of-scope identifier assetCtxs, throwing a
ReferenceError on the first element; an empty data array never invokes the
callback and maps to []; any other message returns null (Option.none). -/
def extractTradeData (channel : String) (data : List RawTrade) :
    Except ReferenceError (Option (List TradeRec)) :=
  if channel = "trades" then
    match data with
    | [] => Except.ok (some [])
    | _ :: _ => Except.error ReferenceError.assetCtxsUndefined
  else
    Except.ok none

/-- The try/catch of handleWebSocketMessage (whaleTracker.js 128-186)
around extractTradeData: a thrown error is caught and logged and the whole
message contributes no trades; a null or empty result is skipped by the
`trades && trades.length > 0` guard. -/
def handleMessageTrades (channel : String) (data : List RawTrade) :
    List TradeRec :=
  match extractTradeData channel data with
  | Except.error _ => []
  | Except.ok none => []
  | Except.ok (some trades) => trades

/-- The per-asset loop of fetchActivePositions (hyperliquid.js 261-309),
given for each monitored asset whether its globalPositions response body
parsed to an array: the first array response runs the loop body, whose
first statement `const assetIndex = assetIndices[asset]` (line 282) reads
the out-of-scope identifier assetIndices and throws; a non-array response
skips the body. -/
def fetchActivePositionsLoop : List Bool → Except ReferenceError Unit
  | [] => Except.ok ()
  | false :: rest => fetchActivePositionsLoop rest
  | true :: _ => Except.error ReferenceError.assetIndicesUndefined

/-- fetchActivePositions (hyperliquid.js 250-317): positions are pushed
only inside the loop body after the throwing lookup at line 282, so on the
ok path (no array response) activePositions is still empty, and the catch
at lines 313-316 turns the thrown error into []; the function returns the
empty list either way. -/
def fetchActivePositions (responseIsArray : List Bool) : List PositionRec :=
  match fetchActivePositionsLoop responseIsArray with
  | Except.error _ => []
  | Except.ok _ => []

/- ---------------------------------------------------------------------
   Theorems.
--------------------------------------------------------------------- -/

/-- Branch lemma: when the relative absolute-size change exceeds 0.1 the
reconciliation takes the update branch. -/
theorem scanExistingPosition_pos (existing position : PositionRec) (price : ℚ)
    (hc : 1/10 < |(|position.size| - |existing.size|)| / |existing.size|) :
    scanExistingPosition existing position price =
      { updated := true
        tracked := position
        sizeDelta := some (|position.size| - |existing.size|)
        persisted := true
        alerted := decide (|position.notionalValue| ≥ 1000000 ∧
                           |(|position.size| - |existing.size|)| * price ≥ 500000) } := by
  simp only [scanExistingPosition]
  rw [if_pos hc]

/-- Branch lemma: a sub-threshold relative absolute-size change leaves the
tracked position untouched. -/
theorem scanExistingPosition_neg (existing position : PositionRec) (price : ℚ)
    (hc : ¬ (1/10 < |(|position.size| - |existing.size|)| / |existing.size|)) :
    scanExistingPosition existing position price =
      { updated := false, tracked := existing, sizeDelta := none,
        persisted := false, alerted := false } := by
  simp only [scanExistingPosition]
  rw [if_neg hc]

/-- C1 (counterexample): with signed sizes, a tracked LONG of size 1 that
flips to a SHORT of size -1 has relative signed size change
|size_now - size_prev| / |size_prev| = 2 > 0.1, yet scanWhalePositions,
which compares absolute sizes, does not transition the position to
updated. -/
theorem scanExistingPosition_signFlip_no_update :
    |(-1 : ℚ) - 1| / |(1 : ℚ)| > 1/10 ∧
    (scanExistingPosition
      { wallet := "0xw", asset := "BTC", size := 1, direction := Direction.LONG,
        notionalValue := 100000, entryPrice := 100000, liquidationPrice := 0 }
      { wallet := "0xw", asset := "BTC", size := -1, direction := Direction.SHORT,
        notionalValue := 100000, entryPrice := 100000, liquidationPrice := 0 }
      100000).updated = false := by
  constructor
  · norm_num
  · norm_num [scanExistingPosition]

/-- C1 (amended): the tracker transitions a tracked position to updated if
and only if the relative change of the ABSOLUTE size exceeds 0.1, i.e.
||size_now| - |size_prev|| / |size_prev| > 0.1; an absolute-size change of
exactly 10 percent does not trigger the transition while 10.01 percent
does, and a transition persists the position and sets sizeDelta. -/
theorem scanExistingPosition_update_iff (existing position : PositionRec)
    (price : ℚ) (h : existing.size ≠ 0) :
    ((scanExistingPosition existing position price).updated = true ↔
        |(|position.size| - |existing.size|)| / |existing.size| > 1/10)
    ∧ (|(|position.size| - |existing.size|)| = |existing.size| / 10 →
        (scanExistingPosition existing position price).updated = false)
    ∧ (|(|position.size| - |existing.size|)| = |existing.size| * (1001/10000) →
        (scanExistingPosition existing position price).updated = true)
    ∧ ((scanExistingPosition existing position price).updated = true →
        (scanExistingPosition existing position price).persisted = true ∧
        (scanExistingPosition existing position price).sizeDelta =
          some (|position.size| - |existing.size|)) := by
  have hE : (0 : ℚ) < |existing.size| := abs_pos.mpr h
  have hiff : (scanExistingPosition existing position price).updated = true ↔
      1/10 < |(|position.size| - |existing.size|)| / |existing.size| := by
    by_cases hc : 1/10 < |(|position.size| - |existing.size|)| / |existing.size|
    · rw [scanExistingPosition_pos existing position price hc]
      simpa using hc
    · rw [scanExistingPosition_neg existing position price hc]
      simpa using hc
  refine ⟨hiff, ?_, ?_, ?_⟩
  · intro heq
    have h10 : |existing.size| / 10 / |existing.size| = 1/10 := by
      rw [div_div, mul_comm, ← div_div, div_self hE.ne']
    have hnc : ¬ (1/10 < |(|position.size| - |existing.size|)| / |existing.size|) := by
      rw [heq, h10]
      exact lt_irrefl _
    rw [scanExistingPosition_neg existing position price hnc]
  · intro heq
    have hv : |(|position.size| - |existing.size|)| / |existing.size| = 1001/10000 := by
      rw [heq, mul_comm, mul_div_assoc, div_self hE.ne', mul_one]
    have hc : 1/10 < |(|position.size| - |existing.size|)| / |existing.size| := by
      rw [hv]
      norm_num
    rw [scanExistingPosition_pos existing position price hc]
  · intro hup
    have hc := hiff.mp hup
    rw [scanExistingPosition_pos existing position price hc]
    exact ⟨rfl, rfl⟩

/-- C1 (witness): a tracked absolute size of 100 updated to 110.01 is a
10.01 percent change and triggers the transition. -/
theorem scanExistingPosition_update_iff_witness :
    (scanExistingPosition
      { wallet := "0xw", asset := "BTC", size := 100, direction := Direction.LONG,
        notionalValue := 5000000, entryPrice := 50000, liquidationPrice := 0 }
      { wallet := "0xw", asset := "BTC", size := 11001/100, direction := Direction.LONG,
        notionalValue := 5500500, entryPrice := 50000, liquidationPrice := 0 }
      50000).updated = true := by
  have h := (scanExistingPosition_update_iff
      { wallet := "0xw", asset := "BTC", size := 100, direction := Direction.LONG,
        notionalValue := 5000000, entryPrice := 50000, liquidationPrice := 0 }
      { wallet := "0xw", asset := "BTC", size := 11001/100, direction := Direction.LONG,
        notionalValue := 5500500, entryPrice := 50000, liquidationPrice := 0 }
      50000 (by norm_num)).1
  exact h.mpr (by norm_num [abs])

/-- C2: the deduplication filter never admits a trade with a missing
identifier, rejects (without changing the set) any identifier already in
the set, admits an identifier not in the set and records it, and only
admits identifiers that were not in the set. -/
theorem tradeDedupAdmit_exactly_once (s : List ℕ) (id : ℕ) :
    (tradeDedupAdmit s none).1 = false
    ∧ (tradeDedupAdmit s none).2 = s
    ∧ (id ∈ s → tradeDedupAdmit s (some id) = (false, s))
    ∧ (id ∉ s → (tradeDedupAdmit s (some id)).1 = true
        ∧ id ∈ (tradeDedupAdmit s (some id)).2)
    ∧ ((tradeDedupAdmit s (some id)).1 = true → id ∉ s) := by
  refine ⟨rfl, rfl, ?_, ?_, ?_⟩
  · intro hmem; simp [tradeDedupAdmit, hmem]
  · intro hmem
    constructor
    · simp only [tradeDedupAdmit, if_neg hmem]
      split <;> rfl
    · simp only [tradeDedupAdmit, if_neg hmem]
      split
      · next hlen =>
        have hlen' : 1000 ≤ s.length := by
          simp only [List.length_append, List.length_singleton,
            MAX_CACHED_TRADE_IDS] at hlen
          omega
        rw [List.drop_append_of_le_length hlen']
        simp
      · simp
  · intro htrue
    intro hmem
    simp [tradeDedupAdmit, hmem] at htrue

/-- C2 (witness): id 7 is admitted from a set not containing it, recorded,
and rejected on the next occurrence. -/
theorem tradeDedupAdmit_exactly_once_witness :
    (tradeDedupAdmit [1, 2] (some 7)).1 = true
    ∧ 7 ∈ (tradeDedupAdmit [1, 2] (some 7)).2
    ∧ tradeDedupAdmit [1, 2, 7] (some 7) = (false, [1, 2, 7])
    ∧ (tradeDedupAdmit [1, 2] none).1 = false := by
  have h := tradeDedupAdmit_exactly_once [1, 2] 7
  have h' := tradeDedupAdmit_exactly_once [1, 2, 7] 7
  exact ⟨(h.2.2.2.1 (by decide)).1, (h.2.2.2.1 (by decide)).2,
         h'.2.2.1 (by decide), h.1⟩

/-- C3: when a tracked key vanishes from the snapshot and both an entry
price and a market price are known, the recorded realized PnL equals
(exit - entry) * |size| for LONG and (entry - exit) * |size| for SHORT,
with the last known market price as exit price, and the closed record is
persisted. -/
theorem scanClosedPosition_pnl (position : PositionRec) (p : ℚ)
    (he : position.entryPrice ≠ 0) (hp : p ≠ 0) :
    (scanClosedPosition position (some p)).finalPnl =
      some (if position.direction = Direction.LONG
            then (p - position.entryPrice) * |position.size|
            else (position.entryPrice - p) * |position.size|)
    ∧ (scanClosedPosition position (some p)).exitPrice = some p
    ∧ (scanClosedPosition position (some p)).stored = true
    ∧ (scanClosedPosition position (some p)).removed = true := by
  refine ⟨?_, ?_, ?_, ?_⟩ <;> simp [scanClosedPosition, he, hp]

/-- C3 (witness): LONG size 10 entry 100 exit 120 yields PnL 200; SHORT
size 10 entry 120 exit 100 yields PnL 200. -/
theorem scanClosedPosition_pnl_witness :
    (scanClosedPosition
      { wallet := "0xa", asset := "BTC", size := 10, direction := Direction.LONG,
        notionalValue := 1000, entryPrice := 100, liquidationPrice := 0 }
      (some 120)).finalPnl = some 200
    ∧ (scanClosedPosition
      { wallet := "0xb", asset := "ETH", size := -10, direction := Direction.SHORT,
        notionalValue := 1200, entryPrice := 120, liquidationPrice := 0 }
      (some 100)).finalPnl = some 200 := by
  have h1 := (scanClosedPosition_pnl
      { wallet := "0xa", asset := "BTC", size := 10, direction := Direction.LONG,
        notionalValue := 1000, entryPrice := 100, liquidationPrice := 0 }
      120 (by norm_num) (by norm_num)).1
  have h2 := (scanClosedPosition_pnl
      { wallet := "0xb", asset := "ETH", size := -10, direction := Direction.SHORT,
        notionalValue := 1200, entryPrice := 120, liquidationPrice := 0 }
      100 (by norm_num) (by norm_num)).1
  refine ⟨h1.trans ?_, h2.trans ?_⟩ <;>
    · simp only [show (Direction.LONG = Direction.LONG) = True by simp,
        show (Direction.SHORT = Direction.LONG) = False by simp,
        if_true, if_false]
      norm_num [abs]

/-- C9: when a tracked key vanishes from the snapshot but the entry price
is falsy, the marketStats entry is missing, or the market price is falsy,
the key is still removed from the tracked map while nothing is persisted,
no wallet statistics are updated, and no closure alert fires. -/
theorem scanClosedPosition_missing_data (position : PositionRec)
    (marketPrice : Option ℚ)
    (h : position.entryPrice = 0 ∨ marketPrice = none ∨ marketPrice = some 0) :
    (scanClosedPosition position marketPrice).removed = true
    ∧ (scanClosedPosition position marketPrice).stored = false
    ∧ (scanClosedPosition position marketPrice).statsUpdated = false
    ∧ (scanClosedPosition position marketPrice).alerted = false := by
  rcases h with he | hn | h0
  · cases marketPrice with
    | none => exact ⟨rfl, rfl, rfl, rfl⟩
    | some p =>
      refine ⟨?_, ?_, ?_, ?_⟩ <;> simp [scanClosedPosition, he]
  · subst hn
    exact ⟨rfl, rfl, rfl, rfl⟩
  · subst h0
    refine ⟨?_, ?_, ?_, ?_⟩ <;> simp [scanClosedPosition]

/-- C9 (witness): a position whose stored entry price is falsy is evicted
without persistence, statistics or alert. -/
theorem scanClosedPosition_missing_data_witness :
    (scanClosedPosition
      { wallet := "0xc", asset := "SOL", size := 500, direction := Direction.LONG,
        notionalValue := 100000, entryPrice := 0, liquidationPrice := 0 }
      (some 200)).removed = true
    ∧ (scanClosedPosition
      { wallet := "0xc", asset := "SOL", size := 500, direction := Direction.LONG,
        notionalValue := 100000, entryPrice := 0, liquidationPrice := 0 }
      (some 200)).stored = false
    ∧ (scanClosedPosition
      { wallet := "0xc", asset := "SOL", size := 500, direction := Direction.LONG,
        notionalValue := 100000, entryPrice := 0, liquidationPrice := 0 }
      (some 200)).statsUpdated = false
    ∧ (scanClosedPosition
      { wallet := "0xc", asset := "SOL", size := 500, direction := Direction.LONG,
        notionalValue := 100000, entryPrice := 0, liquidationPrice := 0 }
      (some 200)).alerted = false :=
  scanClosedPosition_missing_data
    { wallet := "0xc", asset := "SOL", size := 500, direction := Direction.LONG,
      notionalValue := 100000, entryPrice := 0, liquidationPrice := 0 }
    (some 200) (Or.inl rfl)

/-- C4 (code_bug): the identifiers assetCtxs and assetIndices are not in
scope in hyperliquid.js, so the size-normalization expression at line 139
throws a ReferenceError for every trade: a trades message carrying one BTC
trade errors and is dropped whole by the catch in handleWebSocketMessage,
and fetchActivePositions, whose asset loop throws at line 282 on the first
array response, returns the empty list; no raw size is ever scaled by any
multiplier, where the spec intends scaling by 10 ^ -szDecimals via the
startup asset-index table. -/
theorem extractTradeData_throws_referenceError :
    extractTradeData "trades"
        [{ coin := "BTC", sz := 5, px := 2000, tid := some 1 }] =
      Except.error ReferenceError.assetCtxsUndefined
    ∧ handleMessageTrades "trades"
        [{ coin := "BTC", sz := 5, px := 2000, tid := some 1 }] = []
    ∧ fetchActivePositionsLoop [true] =
        Except.error ReferenceError.assetIndicesUndefined
    ∧ fetchActivePositions [true] = []
    ∧ fetchActivePositions [false, false, false] = [] :=
  ⟨rfl, rfl, rfl, rfl, rfl⟩

/-- Branch lemma: a missing marketStats entry yields risk 0, no warning. -/
theorem calcLiq_none (d : Direction) (e l : ℚ) :
    calculateLiquidationRisk d e l none = (0, false) := rfl

/-- Branch lemma: a falsy liquidation or current price yields risk 0. -/
theorem calcLiq_guard (d : Direction) (e l c : ℚ) (hz : l = 0 ∨ c = 0) :
    calculateLiquidationRisk d e l (some c) = (0, false) := by
  simp only [calculateLiquidationRisk]
  rw [if_pos hz]

/-- Branch lemma: LONG with liquidation at or above entry warns and yields 0. -/
theorem calcLiq_long_bad (e l c : ℚ) (hz : ¬ (l = 0 ∨ c = 0)) (hl : l ≥ e) :
    calculateLiquidationRisk Direction.LONG e l (some c) = (0, true) := by
  simp only [calculateLiquidationRisk]
  rw [if_neg hz, if_pos hl]

/-- Branch lemma: the regular LONG formula. -/
theorem calcLiq_long_good (e l c : ℚ) (hz : ¬ (l = 0 ∨ c = 0)) (hl : ¬ l ≥ e) :
    calculateLiquidationRisk Direction.LONG e l (some c) =
      (max 0 (100 - ((c - l) / c) * 100), false) := by
  simp only [calculateLiquidationRisk]
  rw [if_neg hz, if_neg hl]

/-- Branch lemma: SHORT with liquidation at or below entry warns and yields 0. -/
theorem calcLiq_short_bad (e l c : ℚ) (hz : ¬ (l = 0 ∨ c = 0)) (hl : l ≤ e) :
    calculateLiquidationRisk Direction.SHORT e l (some c) = (0, true) := by
  simp only [calculateLiquidationRisk]
  rw [if_neg hz, if_pos hl]

/-- Branch lemma: the regular SHORT formula. -/
theorem calcLiq_short_good (e l c : ℚ) (hz : ¬ (l = 0 ∨ c = 0)) (hl : ¬ l ≤ e) :
    calculateLiquidationRisk Direction.SHORT e l (some c) =
      (max 0 (100 - ((l - c) / c) * 100), false) := by
  simp only [calculateLiquidationRisk]
  rw [if_neg hz, if_neg hl]

/-- C5 (counterexample): a LONG position whose current market price (25)
has already fallen below its liquidation price (50) gets liquidation risk
200, outside [0, 100]. -/
theorem calculateLiquidationRisk_exceeds_100 :
    (calculateLiquidationRisk Direction.LONG 100 50 (some 25)).1 = 200 ∧
    ¬ ((calculateLiquidationRisk Direction.LONG 100 50 (some 25)).1 ≤ 100) := by
  have hv := calcLiq_long_good 100 50 25 (by norm_num) (by norm_num)
  have h200 : (calculateLiquidationRisk Direction.LONG 100 50 (some 25)).1 = 200 := by
    rw [hv]
    norm_num
  refine ⟨h200, ?_⟩
  rw [h200]
  norm_num

/-- C5 (amended): the computed liquidation risk is always nonnegative; a
LONG position with liquidationPrice ≥ entryPrice yields risk 0 with the
warning logged, and a SHORT position with liquidationPrice ≤ entryPrice
likewise; the risk is at most 100 whenever the current price has not
crossed the liquidation price (liq ≤ current for LONG, current ≤ liq for
SHORT), but can exceed 100 once it has. -/
theorem calculateLiquidationRisk_bounds (direction : Direction)
    (entry liq : ℚ) (cur : Option ℚ) :
    0 ≤ (calculateLiquidationRisk direction entry liq cur).1
    ∧ (∀ c, cur = some c → c ≠ 0 → liq ≠ 0 → direction = Direction.LONG →
        entry ≤ liq → calculateLiquidationRisk direction entry liq cur = (0, true))
    ∧ (∀ c, cur = some c → c ≠ 0 → liq ≠ 0 → direction = Direction.SHORT →
        liq ≤ entry → calculateLiquidationRisk direction entry liq cur = (0, true))
    ∧ (∀ c, cur = some c → 0 < c → direction = Direction.LONG → liq ≤ c →
        (calculateLiquidationRisk direction entry liq cur).1 ≤ 100)
    ∧ (∀ c, cur = some c → 0 < c → direction = Direction.SHORT → c ≤ liq →
        (calculateLiquidationRisk direction entry liq cur).1 ≤ 100) := by
  refine ⟨?_, ?_, ?_, ?_, ?_⟩
  · cases cur with
    | none => rw [calcLiq_none]
    | some c =>
      by_cases hz : liq = 0 ∨ c = 0
      · rw [calcLiq_guard direction entry liq c hz]
      · cases direction with
        | LONG =>
          by_cases hl : liq ≥ entry
          · rw [calcLiq_long_bad entry liq c hz hl]
          · rw [calcLiq_long_good entry liq c hz hl]
            exact le_max_left 0 _
        | SHORT =>
          by_cases hl : liq ≤ entry
          · rw [calcLiq_short_bad entry liq c hz hl]
          · rw [calcLiq_short_good entry liq c hz hl]
            exact le_max_left 0 _
  · intro c hc hcz hlz hdir hle
    subst hc
    subst hdir
    exact calcLiq_long_bad entry liq c (by tauto) hle
  · intro c hc hcz hlz hdir hle
    subst hc
    subst hdir
    exact calcLiq_short_bad entry liq c (by tauto) hle
  · intro c hc hcpos hdir hliq
    subst hc
    subst hdir
    by_cases hz : liq = 0 ∨ c = 0
    · rw [calcLiq_guard Direction.LONG entry liq c hz]
      norm_num
    · by_cases hl : liq ≥ entry
      · rw [calcLiq_long_bad entry liq c hz hl]
        norm_num
      · rw [calcLiq_long_good entry liq c hz hl]
        have hdrop : 0 ≤ ((c - liq) / c) * 100 :=
          mul_nonneg (div_nonneg (by linarith) hcpos.le) (by norm_num)
        exact max_le (by norm_num) (by linarith)
  · intro c hc hcpos hdir hliq
    subst hc
    subst hdir
    by_cases hz : liq = 0 ∨ c = 0
    · rw [calcLiq_guard Direction.SHORT entry liq c hz]
      norm_num
    · by_cases hl : liq ≤ entry
      · rw [calcLiq_short_bad entry liq c hz hl]
        norm_num
      · rw [calcLiq_short_good entry liq c hz hl]
        have hrise : 0 ≤ ((liq - c) / c) * 100 :=
          mul_nonneg (div_nonneg (by linarith) hcpos.le) (by norm_num)
        exact max_le (by norm_num) (by linarith)

/-- C5 (witness): a LONG at entry 100 with liquidation 110 yields (0, warn);
a SHORT at entry 100 with liquidation 90 yields (0, warn); a healthy LONG
(entry 100, liquidation 90, current 95) stays within 100. -/
theorem calculateLiquidationRisk_bounds_witness :
    calculateLiquidationRisk Direction.LONG 100 110 (some 105) = (0, true)
    ∧ calculateLiquidationRisk Direction.SHORT 100 90 (some 95) = (0, true)
    ∧ (calculateLiquidationRisk Direction.LONG 100 90 (some 95)).1 ≤ 100
    ∧ 0 ≤ (calculateLiquidationRisk Direction.LONG 100 50 (some 25)).1 := by
  refine ⟨?_, ?_, ?_, ?_⟩
  · exact (calculateLiquidationRisk_bounds Direction.LONG 100 110 (some 105)).2.1
      105 rfl (by norm_num) (by norm_num) rfl (by norm_num)
  · exact (calculateLiquidationRisk_bounds Direction.SHORT 100 90 (some 95)).2.2.1
      95 rfl (by norm_num) (by norm_num) rfl (by norm_num)
  · exact (calculateLiquidationRisk_bounds Direction.LONG 100 90 (some 95)).2.2.2.1
      95 rfl (by norm_num) rfl (by norm_num)
  · exact (calculateLiquidationRisk_bounds Direction.LONG 100 50 (some 25)).1

/-- C6: on unexpected close with attempt counter k below 10 the reconnect
is scheduled after 5000 * 1.5 ^ k milliseconds and the counter increments;
attempts 0, 1, 2 are delayed 5000, 7500, 11250 ms; once the counter has
reached 10 no reconnect is ever scheduled and the counter is unchanged; a
successful re-open resets the counter to zero. -/
theorem wsOnClose_backoff (k : ℕ) :
    (k < MAX_RECONNECT_ATTEMPTS →
      wsOnClose k = (some (5000 * (3/2 : ℚ) ^ k), k + 1))
    ∧ (MAX_RECONNECT_ATTEMPTS ≤ k → wsOnClose k = (none, k))
    ∧ wsOnOpen k = 0
    ∧ (wsOnClose 0).1 = some 5000
    ∧ (wsOnClose 1).1 = some 7500
    ∧ (wsOnClose 2).1 = some 11250 := by
  refine ⟨?_, ?_, rfl, ?_, ?_, ?_⟩
  · intro hk
    simp [wsOnClose, hk, RECONNECT_DELAY_MS]
  · intro hk
    simp [wsOnClose, Nat.not_lt.mpr hk]
  · norm_num [wsOnClose, RECONNECT_DELAY_MS, MAX_RECONNECT_ATTEMPTS]
  · norm_num [wsOnClose, RECONNECT_DELAY_MS, MAX_RECONNECT_ATTEMPTS]
  · norm_num [wsOnClose, RECONNECT_DELAY_MS, MAX_RECONNECT_ATTEMPTS]

/-- C6 (witness): attempt 3 is delayed 16875 ms with the counter moving to
4; at counter 10 nothing is scheduled. -/
theorem wsOnClose_backoff_witness :
    wsOnClose 3 = (some 16875, 4) ∧ wsOnClose 10 = (none, 10) := by
  have h := (wsOnClose_backoff 3).1 (by norm_num [MAX_RECONNECT_ATTEMPTS])
  have h2 := (wsOnClose_backoff 10).2.1 (le_refl _)
  refine ⟨h.trans ?_, h2⟩
  norm_num

/-- C8: a call within 30 s of a successful fetch with a non-empty cache
returns the cached mapping without a network call; at or past 30 s a
network fetch is attempted; a thrown fetch error returns the (possibly
stale) cached mapping when one exists and the explicit empty mapping
otherwise, never propagating the error. -/
theorem fetchRealTimePrices_cache_policy (c : PriceCache) (now : ℤ)
    (outcome : Except Unit (List (String × ℚ))) :
    (now - c.lastUpdated < 30000 → c.prices ≠ [] →
      fetchRealTimePrices c now outcome =
        { result := c.prices, cache := c, networkCalled := false })
    ∧ (30000 ≤ now - c.lastUpdated →
      (fetchRealTimePrices c now outcome).networkCalled = true)
    ∧ (∀ e, outcome = Except.error e → 30000 ≤ now - c.lastUpdated →
        c.prices ≠ [] → (fetchRealTimePrices c now outcome).result = c.prices)
    ∧ (∀ e, outcome = Except.error e → c.prices = [] →
        (fetchRealTimePrices c now outcome).result = []) := by
  refine ⟨?_, ?_, ?_, ?_⟩
  · intro h1 h2
    simp [fetchRealTimePrices, h1, h2]
  · intro h1
    have hn : ¬ (now - c.lastUpdated < 30000 ∧ c.prices ≠ []) := by
      intro hcon
      exact absurd hcon.1 (not_lt.mpr h1)
    simp only [fetchRealTimePrices]
    rw [if_neg hn]
    cases outcome with
    | ok l =>
      by_cases hl : l = [] <;> simp [hl]
    | error e =>
      by_cases hp : c.prices = [] <;> simp [hp]
  · intro e hout h1 h2
    subst hout
    have hn : ¬ (now - c.lastUpdated < 30000 ∧ c.prices ≠ []) := by
      intro hcon
      exact absurd hcon.1 (not_lt.mpr h1)
    simp only [fetchRealTimePrices]
    rw [if_neg hn]
    simp [h2]
  · intro e hout hp
    subst hout
    have hn : ¬ (now - c.lastUpdated < 30000 ∧ c.prices ≠ []) := by
      intro hcon
      exact hcon.2 hp
    simp only [fetchRealTimePrices]
    rw [if_neg hn]
    simp [hp]

/-- C8 (witness): a cache fetched at t=1000 read at t=20000 is served
without a network call; the same cache read at t=40000 with a failing
fetch is served stale over the network path; an empty cache with a failing
fetch yields the explicit empty mapping. -/
theorem fetchRealTimePrices_cache_policy_witness :
    fetchRealTimePrices { lastUpdated := 1000, prices := [("BTC", 50000)] }
        20000 (Except.error ()) =
      { result := [("BTC", 50000)]
        cache := { lastUpdated := 1000, prices := [("BTC", 50000)] }
        networkCalled := false }
    ∧ (fetchRealTimePrices { lastUpdated := 1000, prices := [("BTC", 50000)] }
        40000 (Except.error ())).result = [("BTC", 50000)]
    ∧ (fetchRealTimePrices { lastUpdated := 1000, prices := [("BTC", 50000)] }
        40000 (Except.error ())).networkCalled = true
    ∧ (fetchRealTimePrices { lastUpdated := 0, prices := [] }
        100 (Except.error ())).result = [] := by
  have h := fetchRealTimePrices_cache_policy
      { lastUpdated := 1000, prices := [("BTC", 50000)] } 20000 (Except.error ())
  have h2 := fetchRealTimePrices_cache_policy
      { lastUpdated := 1000, prices := [("BTC", 50000)] } 40000 (Except.error ())
  have h3 := fetchRealTimePrices_cache_policy
      { lastUpdated := 0, prices := [] } 100 (Except.error ())
  exact ⟨h.1 (by norm_num) (by simp),
         h2.2.2.1 () rfl (by norm_num) (by simp),
         h2.2.1 (by norm_num),
         h3.2.2.2 () rfl rfl⟩

/-- C10: starting from a set within the 10000-id bound, one deduplication
step keeps the set within the bound; when the bound is exceeded (a new id
admitted into a full set of 10000) exactly the 1000 oldest identifiers in
insertion order are evicted, the freshly admitted identifier survives its
own eviction, and the set shrinks to 9001 identifiers. -/
theorem tradeDedupAdmit_bounded (s : List ℕ) (t : Option ℕ) (id : ℕ)
    (hs : s.length ≤ MAX_CACHED_TRADE_IDS) :
    (tradeDedupAdmit s t).2.length ≤ MAX_CACHED_TRADE_IDS
    ∧ (s.length = MAX_CACHED_TRADE_IDS → id ∉ s →
        (tradeDedupAdmit s (some id)).2 = (s ++ [id]).drop 1000
        ∧ (s ++ [id]).take 1000 = s.take 1000
        ∧ id ∈ (tradeDedupAdmit s (some id)).2
        ∧ (tradeDedupAdmit s (some id)).2.length = 9001) := by
  constructor
  · match t with
    | none => exact hs
    | some i =>
      by_cases hmem : i ∈ s
      · simpa [tradeDedupAdmit, hmem] using hs
      · simp only [tradeDedupAdmit, if_neg hmem]
        split
        · next hlen =>
          simp only [List.length_drop, List.length_append, List.length_singleton]
          simp only [MAX_CACHED_TRADE_IDS] at hs ⊢
          omega
        · next hlen =>
          simp only [MAX_CACHED_TRADE_IDS] at hlen ⊢
          omega
  · intro hfull hmem
    have hlen : MAX_CACHED_TRADE_IDS < (s ++ [id]).length := by
      simp [hfull]
    have hres : (tradeDedupAdmit s (some id)).2 = (s ++ [id]).drop 1000 := by
      simp only [tradeDedupAdmit, if_neg hmem]
      rw [if_pos hlen]
    have htake : 1000 ≤ s.length := by
      rw [hfull]
      norm_num [MAX_CACHED_TRADE_IDS]
    refine ⟨hres, List.take_append_of_le_length htake, ?_, ?_⟩
    · rw [hres, List.drop_append_of_le_length htake]
      simp
    · rw [hres]
      simp only [List.length_drop, List.length_append, List.length_singleton]
      rw [hfull]
      norm_num [MAX_CACHED_TRADE_IDS]

/-- C10 (witness): admitting id 10000 into the full set 0..9999 evicts the
ids 0..999 and keeps the new id. -/
theorem tradeDedupAdmit_bounded_witness :
    (tradeDedupAdmit (List.range 10000) (some 10000)).2 =
      ((List.range 10000) ++ [10000]).drop 1000
    ∧ 10000 ∈ (tradeDedupAdmit (List.range 10000) (some 10000)).2
    ∧ (tradeDedupAdmit (List.range 10000) (some 10000)).2.length = 9001 := by
  have h := (tradeDedupAdmit_bounded (List.range 10000) (some 10000) 10000
      (by simp [MAX_CACHED_TRADE_IDS])).2
      (by simp [MAX_CACHED_TRADE_IDS]) (by simp)
  exact ⟨h.1, h.2.2.1, h.2.2.2⟩

/-- Filtering a nondecreasing timestamp list by membership in the window
ending at t removes exactly a prefix. -/
theorem filter_sorted_drop (w t : ℤ) (m : List ℤ) (hm : m.Sorted (· ≤ ·)) :
    ∃ j, j ≤ m.length ∧ m.filter (fun a => decide (t - a < w)) = m.drop j ∧
      ∀ a ∈ m.take j, w ≤ t - a := by
  induction m with
  | nil => exact ⟨0, by simp, by simp, by simp⟩
  | cons a m ih =>
    rw [List.sorted_cons] at hm
    obtain ⟨ha, hm2⟩ := hm
    by_cases hpa : t - a < w
    · refine ⟨0, by simp, ?_, by simp⟩
      rw [List.drop_zero]
      apply List.filter_eq_self.mpr
      intro b hb
      rcases List.mem_cons.mp hb with rfl | hbm
      · simpa using hpa
      · have hab := ha b hbm
        simp only [decide_eq_true_eq]
        linarith
    · obtain ⟨j, hj, hfil, hfail⟩ := ih hm2
      refine ⟨j + 1, by simpa using hj, ?_, ?_⟩
      · rw [List.filter_cons_of_neg, hfil, List.drop_succ_cons]
        simpa using hpa
      · intro b hb
        rw [List.take_succ_cons] at hb
        rcases List.mem_cons.mp hb with rfl | hbm
        · linarith [not_lt.mp hpa]
        · exact hfail b hbm

/-- Under the invariant, pruning the live request list at a later time
yields precisely the admissions still inside the window. -/
theorem pruneRequests_eq_filter_admitted (s : RateLimiter) (hinv : RLInv s)
    (now : ℤ) (hle : s.last ≤ now) :
    pruneRequests s.timeWindow now s.requests =
      s.admitted.filter (fun a => decide (now - a < s.timeWindow)) := by
  obtain ⟨k, hk, hreq, hdropped⟩ := hinv.suffix
  have h1 : s.admitted.filter (fun a => decide (now - a < s.timeWindow)) =
      (s.admitted.take k).filter (fun a => decide (now - a < s.timeWindow)) ++
      (s.admitted.drop k).filter (fun a => decide (now - a < s.timeWindow)) := by
    rw [← List.filter_append, List.take_append_drop]
  have h2 : (s.admitted.take k).filter
      (fun a => decide (now - a < s.timeWindow)) = [] := by
    rw [List.filter_eq_nil_iff]
    intro a ha
    have hw := hdropped a ha
    simp only [decide_eq_true_eq, not_lt]
    linarith
  rw [pruneRequests, hreq, h1, h2, List.nil_append]

/-- Granting a slot at time now preserves the limiter invariant. -/
theorem rlInv_grant (s : RateLimiter) (q : ℕ) (now : ℤ) (hinv : RLInv s)
    (hle : s.last ≤ now)
    (hc : (pruneRequests s.timeWindow now s.requests).length < s.maxRequests) :
    RLInv { maxRequests := s.maxRequests, timeWindow := s.timeWindow,
            requests := pruneRequests s.timeWindow now s.requests ++ [now],
            queueLen := q, admitted := s.admitted ++ [now], last := now } := by
  obtain ⟨k, hk, hreq, hdropped⟩ := hinv.suffix
  have hsorted_drop : (s.admitted.drop k).Sorted (· ≤ ·) :=
    hinv.sorted.sublist (List.drop_sublist k s.admitted)
  obtain ⟨j, hj, hfil, hfail⟩ :=
    filter_sorted_drop s.timeWindow now (s.admitted.drop k) hsorted_drop
  have hkj : k + j ≤ s.admitted.length := by
    rw [List.length_drop] at hj
    omega
  constructor
  · dsimp only
    refine List.pairwise_append.mpr ⟨hinv.sorted, List.pairwise_singleton _ _, ?_⟩
    intro a ha b hb
    rw [List.mem_singleton] at hb
    subst hb
    exact le_trans (hinv.le_last a ha) hle
  · dsimp only
    intro a ha
    rcases List.mem_append.mp ha with h1 | h2
    · exact le_trans (hinv.le_last a h1) hle
    · rw [List.mem_singleton] at h2
      exact le_of_eq h2
  · refine ⟨k + j, ?_, ?_, ?_⟩
    · dsimp only
      rw [List.length_append, List.length_singleton]
      omega
    · dsimp only
      rw [pruneRequests, hreq, hfil, List.drop_drop,
        List.drop_append_of_le_length hkj]
    · dsimp only
      intro a ha
      rw [List.take_append_of_le_length hkj, List.take_add] at ha
      rcases List.mem_append.mp ha with h1 | h2
      · have hw := hdropped a h1
        linarith
      · exact hfail a h2
  · dsimp only
    intro pre b post hdec
    rcases List.eq_nil_or_concat post with rfl | ⟨post2, c, rfl⟩
    · obtain ⟨h1, h2⟩ := List.append_inj' hdec (by simp)
      have hb : now = b := by
        simpa using h2
      have heq := pruneRequests_eq_filter_admitted s hinv now hle
      rw [← h1, ← hb, ← heq]
      exact hc
    · have hdec2 : s.admitted ++ [now] = (pre ++ b :: post2) ++ [c] := by
        rw [hdec]
        simp
      obtain ⟨h1, h2⟩ := List.append_inj' hdec2 (by simp)
      exact hinv.guard pre b post2 h1

/-- Pruning without granting a slot preserves the limiter invariant. -/
theorem rlInv_nogrant (s : RateLimiter) (q : ℕ) (now : ℤ) (hinv : RLInv s)
    (hle : s.last ≤ now) :
    RLInv { maxRequests := s.maxRequests, timeWindow := s.timeWindow,
            requests := pruneRequests s.timeWindow now s.requests,
            queueLen := q, admitted := s.admitted, last := now } := by
  obtain ⟨k, hk, hreq, hdropped⟩ := hinv.suffix
  have hsorted_drop : (s.admitted.drop k).Sorted (· ≤ ·) :=
    hinv.sorted.sublist (List.drop_sublist k s.admitted)
  obtain ⟨j, hj, hfil, hfail⟩ :=
    filter_sorted_drop s.timeWindow now (s.admitted.drop k) hsorted_drop
  have hkj : k + j ≤ s.admitted.length := by
    rw [List.length_drop] at hj
    omega
  constructor
  · exact hinv.sorted
  · dsimp only
    intro a ha
    exact le_trans (hinv.le_last a ha) hle
  · refine ⟨k + j, hkj, ?_, ?_⟩
    · dsimp only
      rw [pruneRequests, hreq, hfil, List.drop_drop]
    · dsimp only
      intro a ha
      rw [List.take_add] at ha
      rcases List.mem_append.mp ha with h1 | h2
      · have hw := hdropped a h1
        linarith
      · exact hfail a h2
  · exact hinv.guard

/-- Every limiter step at a time not before the previous one preserves
the invariant and the configuration constants. -/
theorem rlStep_inv (s : RateLimiter) (e : RLEvent) (hinv : RLInv s)
    (hle : s.last ≤ e.time) :
    RLInv (rlStep s e) ∧ (rlStep s e).last = e.time
    ∧ (rlStep s e).maxRequests = s.maxRequests
    ∧ (rlStep s e).timeWindow = s.timeWindow := by
  cases e with
  | request t =>
    simp only [RLEvent.time] at hle
    simp only [rlStep, waitForSlot]
    by_cases hc : (pruneRequests s.timeWindow t s.requests).length < s.maxRequests
    · rw [if_pos hc]
      exact ⟨rlInv_grant s s.queueLen t hinv hle hc, rfl, rfl, rfl⟩
    · rw [if_neg hc]
      exact ⟨rlInv_nogrant s (s.queueLen + 1) t hinv hle, rfl, rfl, rfl⟩
  | poll t =>
    simp only [RLEvent.time] at hle
    simp only [rlStep, processQueueStep]
    by_cases hq : s.queueLen = 0
    · rw [if_pos hq]
      obtain ⟨k, hk, hreq, hdropped⟩ := hinv.suffix
      refine ⟨?_, rfl, rfl, rfl⟩
      exact { sorted := hinv.sorted
              le_last := fun a ha => le_trans (hinv.le_last a ha) hle
              suffix := ⟨k, hk, hreq, fun a ha =>
                le_trans (hdropped a ha) (by have := hle; simp; linarith)⟩
              guard := hinv.guard }
    · rw [if_neg hq]
      by_cases hc : (pruneRequests s.timeWindow t s.requests).length < s.maxRequests
      · rw [if_pos hc]
        exact ⟨rlInv_grant s (s.queueLen - 1) t hinv hle hc, rfl, rfl, rfl⟩
      · rw [if_neg hc]
        exact ⟨rlInv_nogrant s s.queueLen t hinv hle, rfl, rfl, rfl⟩

/-- A run over nondecreasing event times preserves the invariant. -/
theorem rlRun_inv (es : List RLEvent) : ∀ s : RateLimiter, RLInv s →
    List.Chain (· ≤ ·) s.last (es.map RLEvent.time) →
    RLInv (rlRun s es) ∧ (rlRun s es).maxRequests = s.maxRequests
    ∧ (rlRun s es).timeWindow = s.timeWindow := by
  induction es with
  | nil =>
    intro s h _
    exact ⟨h, rfl, rfl⟩
  | cons e es ih =>
    intro s hinv hchain
    rw [List.map_cons, List.chain_cons] at hchain
    obtain ⟨hle, hchain2⟩ := hchain
    obtain ⟨hinv1, hlast1, hmax1, hw1⟩ := rlStep_inv s e hinv hle
    have hchain1 : List.Chain (· ≤ ·) (rlStep s e).last (es.map RLEvent.time) := by
      rw [hlast1]
      exact hchain2
    obtain ⟨h1, h2, h3⟩ := ih (rlStep s e) hinv1 hchain1
    rw [rlRun, List.foldl_cons]
    exact ⟨h1, h2.trans hmax1, h3.trans hw1⟩

/-- The freshly constructed limiter satisfies the invariant. -/
theorem rlInv_mk (maxR : ℕ) (w : ℤ) : RLInv (mkRateLimiter maxR w) := by
  refine { sorted := List.sorted_nil
           le_last := by simp [mkRateLimiter]
           suffix := ⟨0, by simp [mkRateLimiter], by simp [mkRateLimiter],
             by simp [mkRateLimiter]⟩
           guard := ?_ }
  intro pre b post h
  exact absurd h (by simp [mkRateLimiter])

/-- From the per-admission guard, every rolling window of width w holds
at most maxR admissions. -/
theorem GuardOK_windowCount (maxR : ℕ) (w t : ℤ) (l : List ℤ)
    (hg : GuardOK maxR w l) : windowCount w t l ≤ maxR := by
  induction l using List.reverseRecOn with
  | nil => simp [windowCount]
  | append_singleton l a ih =>
    have hg2 : GuardOK maxR w l := by
      intro pre b post hdec
      exact hg pre b (post ++ [a]) (by rw [hdec]; simp)
    have hlast : (l.filter (fun x => decide (a - x < w))).length < maxR :=
      hg l a [] rfl
    rw [windowCount, List.filter_append, List.length_append]
    by_cases hp : a ≤ t ∧ t - a < w
    · have h1 : (List.filter (fun x => decide (x ≤ t ∧ t - x < w)) [a]).length = 1 := by
        simp [hp]
      rw [h1]
      have hmono : List.Sublist (l.filter (fun x => decide (x ≤ t ∧ t - x < w)))
          (l.filter (fun x => decide (a - x < w))) := by
        apply List.monotone_filter_right
        intro x hx
        simp only [decide_eq_true_eq] at hx ⊢
        obtain ⟨hx1, hx2⟩ := hx
        have hat := hp.1
        linarith
      have hlen := hmono.length_le
      omega
    · have h1 : (List.filter (fun x => decide (x ≤ t ∧ t - x < w)) [a]).length = 0 := by
        simp [hp]
      rw [h1]
      have := ih hg2
      rw [windowCount] at this
      omega

/-- C7: over any run of the tweet rate limiter with nondecreasing
Date.now() values, every rolling 60-second window contains at most 5
admissions; a request arriving while 5 admissions are inside the window
is queued, not admitted, and its timestamp is not recorded; a queued
request is not resolved by a processQueue iteration while 5 admissions
still lie inside the window. -/
theorem tweetRateLimiter_rolling_window :
    (∀ es : List RLEvent,
      List.Chain (· ≤ ·) tweetRateLimiter.last (es.map RLEvent.time) →
      ∀ t : ℤ, windowCount (60 * 1000) t (rlRun tweetRateLimiter es).admitted ≤ 5)
    ∧ (∀ s : RateLimiter, ∀ now : ℤ,
        s.maxRequests ≤ (pruneRequests s.timeWindow now s.requests).length →
        (waitForSlot s now).1 = false
        ∧ (waitForSlot s now).2.queueLen = s.queueLen + 1
        ∧ (waitForSlot s now).2.admitted = s.admitted)
    ∧ (∀ s : RateLimiter, ∀ now : ℤ, s.queueLen ≠ 0 →
        s.maxRequests ≤ (pruneRequests s.timeWindow now s.requests).length →
        (processQueueStep s now).admitted = s.admitted
        ∧ (processQueueStep s now).queueLen = s.queueLen) := by
  refine ⟨?_, ?_, ?_⟩
  · intro es hchain t
    obtain ⟨hinv, hmax, hw⟩ :=
      rlRun_inv es tweetRateLimiter (rlInv_mk 5 (60 * 1000)) hchain
    have hg : GuardOK 5 (60 * 1000) (rlRun tweetRateLimiter es).admitted := by
      have hgg := hinv.guard
      rw [hmax, hw] at hgg
      exact hgg
    exact GuardOK_windowCount 5 (60 * 1000) t _ hg
  · intro s now h
    have hc := not_lt.mpr h
    simp only [waitForSlot]
    rw [if_neg hc]
    exact ⟨rfl, rfl, rfl⟩
  · intro s now hq h
    have hc := not_lt.mpr h
    simp only [processQueueStep]
    rw [if_neg hq, if_neg hc]
    exact ⟨rfl, rfl⟩

/-- C7 (witness): six immediate requests admit at most five inside the
window; the sixth call on a full window is queued without admission and
a poll on a still-full window resolves nothing. -/
theorem tweetRateLimiter_rolling_window_witness :
    windowCount (60 * 1000) 10
      (rlRun tweetRateLimiter
        [RLEvent.request 0, RLEvent.request 1, RLEvent.request 2,
         RLEvent.request 3, RLEvent.request 4, RLEvent.request 5]).admitted ≤ 5
    ∧ (waitForSlot
        { maxRequests := 5, timeWindow := 60000, requests := [0, 1, 2, 3, 4],
          queueLen := 0, admitted := [0, 1, 2, 3, 4], last := 4 } 5).1 = false
    ∧ (waitForSlot
        { maxRequests := 5, timeWindow := 60000, requests := [0, 1, 2, 3, 4],
          queueLen := 0, admitted := [0, 1, 2, 3, 4], last := 4 } 5).2.queueLen = 1
    ∧ (processQueueStep
        { maxRequests := 5, timeWindow := 60000, requests := [0, 1, 2, 3, 4],
          queueLen := 1, admitted := [0, 1, 2, 3, 4], last := 5 } 6).admitted =
        [0, 1, 2, 3, 4] := by
  have h := tweetRateLimiter_rolling_window
  refine ⟨h.1 [RLEvent.request 0, RLEvent.request 1, RLEvent.request 2,
      RLEvent.request 3, RLEvent.request 4, RLEvent.request 5]
      (by simp [tweetRateLimiter, mkRateLimiter, RLEvent.time, List.chain_cons]) 10,
    (h.2.1 _ 5 (by decide)).1,
    ((h.2.1 _ 5 (by decide)).2.1).trans rfl,
    (h.2.2 _ 6 (by decide) (by decide)).1⟩


end WhaleBot
